import Mathlib

/-!
# Verification of the GraphQL extraction-and-diff engine

This file is a shallow embedding, in Lean 4, of the core of the
GraphQL-Codegen-and-Typecheck-Schema-Validator repository
(`src/validator.py`, `src/extractor.py`), together with theorems about
the embedded code.

Modelling conventions:
* Python dicts with string keys become association lists (`List (K × V)`);
  Python dict insertion that overwrites an existing key keeps the key's
  position, and a dict comprehension where a later entry overwrites an
  earlier one is modelled by a reverse `find?`.
* Python `set` objects used only for membership become `List` with `∈`.
* Python truthiness of `None`/objects becomes `Option`; Python `x or y`
  on such values is `pyOr`.  Python truthiness of strings ("" is falsy)
  is checked explicitly where the source relies on it.
* `graphql-core` AST nodes and schema objects are modelled by the
  inductive types below, keeping exactly the attributes the source
  reads.  The `OperationType` enum is modelled by its value string
  ("query" / "mutation" / "subscription").
* External parsers (the Python `ast` module, the GraphQL parser, and
  `re` searches) are collaborators: their outputs are parameters of the
  embedded functions (a pre-parsed tree, a parse oracle, or the match
  groups), and the embedded code is everything the repository does with
  those outputs.
-/

/-! ## Small Python-semantics helpers -/

/-- Python `a or b` on two optional values (`None` falsy, objects truthy). -/
def pyOr {α : Type} (a b : Option α) : Option α :=
  match a with
  | some x => some x
  | none => b

/-- The characters Python `str.strip()` and the regex class `\s` treat as
whitespace (ASCII fragment). -/
def pyIsSpace (c : Char) : Bool :=
  c = ' ' || c = '\t' || c = '\n' || c = '\r' || c = '\x0b' || c = '\x0c'

/-- Python `str.strip()`. -/
def pyStrip (s : String) : String :=
  String.mk (((s.data.dropWhile pyIsSpace).reverse.dropWhile pyIsSpace).reverse)

/-- Number of newline characters in a string (Python `s.count("\n")`). -/
def countNewlines (s : String) : Nat :=
  s.data.count '\n'

/-- Number of occurrences of a character (Python `s.count(c)`). -/
def countChar (s : String) (c : Char) : Nat :=
  s.data.count c

/-- Python substring test `needle in hay`. -/
def strContains (hay needle : String) : Bool :=
  (List.range (hay.data.length + 1)).any
    (fun i => needle.data.isPrefixOf (hay.data.drop i))

/-- Split a character list at newlines, `cur` being the (reversed)
in-progress piece. -/
def splitNewlinesGo (cur : List Char) : List Char → List String
  | [] => [String.mk cur.reverse]
  | c :: rest =>
    if c = '\n' then String.mk cur.reverse :: splitNewlinesGo [] rest
    else splitNewlinesGo (c :: cur) rest

/-- Python `s.splitlines()` restricted to `\n` separators: no trailing
empty piece is produced. -/
def pySplitLines (s : String) : List String :=
  if s = "" then []
  else
    let parts := splitNewlinesGo [] s.data
    if parts.getLast? = some "" then parts.dropLast else parts

/-- Python slice `s[a:b]` for `0 ≤ a ≤ b`. -/
def sliceStr (s : String) (a b : Nat) : String :=
  (s.take b).drop a

/-- Python `str.lower()` on one character (ASCII range, which covers
GraphQL names and the operation keywords the source lowercases). -/
def pyLowerChar (c : Char) : Char :=
  if c.toNat ≥ 65 && c.toNat ≤ 90 then Char.ofNat (c.toNat + 32) else c

/-- Python `str.lower()` (ASCII range). -/
def pyLower (s : String) : String :=
  String.mk (s.data.map pyLowerChar)

/-- Python `str.startswith(p)`. -/
def strStartsWith (s p : String) : Bool :=
  p.data.isPrefixOf s.data

/-- Python `str.endswith(p)`. -/
def strEndsWith (s p : String) : Bool :=
  p.data.reverse.isPrefixOf s.data.reverse

/-! ## The GraphQL schema model (`graphql-core` objects as read by the source)

A schema exposes `get_type`, `query_type`, `mutation_type` and
`subscription_type`; a type exposes `name` and a `fields` mapping; a
field exposes `is_deprecated`, `deprecation_reason` and `type` (possibly
wrapped in NonNull/List wrappers).  Types without fields (scalars) are
modelled with an empty `fields` list, which the source treats
identically (`getattr(t, "fields", {})` / `hasattr` guards). -/

/-- A GraphQL type reference: a named base type, possibly wrapped. -/
inductive GType where
  | base (name : String)
  | nonNull (ofType : GType)
  | listOf (ofType : GType)
deriving Repr

/-- Schema metadata of one field. -/
structure FieldDef where
  is_deprecated : Bool
  deprecation_reason : Option String
  type : GType
deriving Repr

/-- A named schema type with its field map (association list, unique keys). -/
structure TypeDef where
  name : String
  fields : List (String × FieldDef)
deriving Repr

/-- A schema snapshot: its type map and the three root types. -/
structure Schema where
  types : List (String × TypeDef)
  query_type : Option TypeDef := none
  mutation_type : Option TypeDef := none
  subscription_type : Option TypeDef := none
deriving Repr

/-- `schema.get_type(name)`. -/
def Schema.get_type (s : Schema) (name : String) : Option TypeDef :=
  s.types.lookup name

/-- `unwrap_type` (src/validator.py:57-61): strip NonNull/List wrappers. -/
def unwrap_type : GType → GType
  | .nonNull t => unwrap_type t
  | .listOf t => unwrap_type t
  | .base n => .base n

/-- `getattr(field_type, "name", None)` after unwrapping. -/
def gtypeName : Option GType → Option String
  | some t =>
    match unwrap_type t with
    | .base n => some n
    | _ => none
  | none => none

/-! ## Findings and the deduplication state of `traverse_schema` -/

/-- One warning dict produced by the validator
(`{"file": ..., "line": ..., "column": ..., "level": ..., "message": ...}`). -/
structure Warning where
  file : String
  line : Nat
  column : Nat
  level : String
  message : String
deriving Repr, DecidableEq

/-- The deduplication key of `add_warning` (src/validator.py:1112): the
Python tuple `(file, line, column, schema_type, schema_field, reason, kind)`
modelled with named components. -/
structure WKey where
  file : String
  line : Nat
  column : Nat
  schema_type : String
  schema_field : String
  reason : String
  kind : String
deriving Repr, DecidableEq

/-- The mutable state threaded through `traverse_schema`: the `seen`
set of keys and the `warnings` list (appended at the end). -/
structure TravState where
  seen : List WKey
  warnings : List Warning
deriving Repr, DecidableEq

/-- The message body built by `add_warning`
(`f"[{kind}] Field '{schema_field}' in type '{schema_type}' {reason}{client_info}"`). -/
def warning_message (schema_name kind schema_field schema_type reason : String) : String :=
  let client_info :=
    if schema_name = "Admin" || schema_name = "Storefront" then
      " (" ++ schema_name ++ ")"
    else ""
  "[" ++ kind ++ "] Field \x27" ++ schema_field ++ "\x27 in type \x27" ++ schema_type
    ++ "\x27 " ++ reason ++ client_info

/-- The warning dict that `add_warning` appends for a given key. -/
def warning_of_key (schema_name level : String) (k : WKey) : Warning :=
  { file := k.file, line := k.line, column := k.column, level := level,
    message := warning_message schema_name k.kind k.schema_field k.schema_type k.reason }

/-- `add_warning` (src/validator.py:1103-1129): append the warning and
record its key unless the key was already seen. -/
def add_warning (file schema_name : String) (st : TravState)
    (level reason schema_type schema_field kind : String)
    (line column : Nat) : TravState :=
  let key : WKey :=
    { file := file, line := line, column := column, schema_type := schema_type,
      schema_field := schema_field, reason := reason, kind := kind }
  if key ∈ st.seen then st
  else
    { seen := key :: st.seen,
      warnings := st.warnings ++ [warning_of_key schema_name level key] }

/-! ## The selection AST walked by `traverse_schema` -/

/-- A GraphQL selection node: `FieldNode` (with its start-token
`(line, column)` when location info is present, and its optional
selection set), `InlineFragmentNode`, or `FragmentSpreadNode`. -/
inductive SelNode where
  | field (name : String) (loc : Option (Nat × Nat)) (selection_set : Option (List SelNode))
  | inlineFragment (type_condition : Option String) (selection_set : Option (List SelNode))
  | fragmentSpread (name : String)

/-- A fragment definition as consulted through the fragment table:
its type condition and its selection set. -/
structure FragDef where
  type_condition : String
  selection_set : Option (List SelNode)

/-! ## `traverse_schema` (src/validator.py:1042-1248)

The Python recursion is bounded only by the `recursion_depth > 10` cut
at the top of the function, so the embedding is driven by the fuel
`11 - recursion_depth`, which is positive exactly while the guard lets
the body run; `traverse_schema` below recovers the source's signature
and recursion equation (`traverse_schema_eq`). -/

/-- `{k.lower(): k for k in getattr(parent_type, "fields", {})}` followed by
`.get(field_name.lower())`: a dict comprehension keeps the **last** key for
a colliding lowercase form, hence the reverse search. -/
def schema_field_map_key (parent_type : Option TypeDef) (field_name : String) :
    Option String :=
  let keys := match parent_type with
    | some pt => pt.fields.map Prod.fst
    | none => []
  keys.reverse.find? (fun k => pyLower k == pyLower field_name)

/-- `parent_type.fields[schema_field_key] if parent_type and ... else None`
(src/validator.py:1065-1069). -/
def old_field_lookup (parent_type : Option TypeDef)
    (schema_field_key : Option String) : Option FieldDef :=
  match parent_type, schema_field_key with
  | some pt, some k => pt.fields.lookup k
  | _, _ => none

/-- New-schema field lookup (src/validator.py:1079-1090): try the
case-insensitive key first, then the literal field name. -/
def new_field_lookup (new_parent_type : Option TypeDef)
    (schema_field_key : Option String) (field_name : String) : Option FieldDef :=
  match new_parent_type with
  | some npt =>
    let via_key := match schema_field_key with
      | some k => npt.fields.lookup k
      | none => none
    match via_key with
    | some f => some f
    | none => npt.fields.lookup field_name
  | none => none

/-- Location attribution for a field node (src/validator.py:1091-1101):
`(start_line + token.line, token.column + 1)`, else `(start_line, 1)`. -/
def node_location (loc : Option (Nat × Nat)) (start_line : Nat) : Nat × Nat :=
  match loc with
  | some (tline, tcol) => (start_line + tline, tcol + 1)
  | none => (start_line, 1)

/-- The three conditional emissions of the `FieldNode` branch
(src/validator.py:1131-1166), in source order: DEPRECATED when the old
field carries a truthy deprecated flag or reason, REMOVED when the field
is present in old but missing in new, ADDED when missing in old but
present in new (the latter two only under `check_removed_and_added`). -/
def emit_field_findings (file schema_name : String) (st : TravState)
    (check_removed_and_added : Bool) (old_field new_field : Option FieldDef)
    (parent_type_name field_name : String) (line column : Nat) : TravState :=
  -- Deprecation (old schema)
  let st1 :=
    match old_field with
    | some f =>
      if f.is_deprecated ||
          (match f.deprecation_reason with
           | some r => r != ""
           | none => false) then
        add_warning file schema_name st "warning"
          ("is deprecated in old schema: " ++
            (match f.deprecation_reason with
             | some r => r
             | none => "None"))
          parent_type_name field_name "DEPRECATED" line column
      else st
    | none => st
  -- Removed (present in old, missing in new)
  let st2 :=
    if check_removed_and_added && old_field.isSome && new_field.isNone then
      add_warning file schema_name st1 "warning" "was removed in new schema"
        parent_type_name field_name "REMOVED" line column
    else st1
  -- Newly added (present in new, missing in old)
  if check_removed_and_added && old_field.isNone && new_field.isSome then
    add_warning file schema_name st2 "warning" "was added in new schema"
      parent_type_name field_name "ADDED" line column
  else st2

/-- Fuel-indexed body of `traverse_schema`; the fuel is `11 - recursion_depth`,
so the `fuel = 0` case is unreachable whenever the depth guard admits the body.
The `for sel in ...selections:` loops of the source become `List.foldl`
threading the state through the children in order, each child at
`recursion_depth + 1` as in the source. -/
def traverse_go (fuel : Nat) (node : SelNode) (parent_type : Option TypeDef)
    (old_schema new_schema : Schema) (schema_name : String) (start_line : Nat)
    (file : String) (st : TravState) (check_removed_and_added : Bool)
    (fragment_definitions : List (String × FragDef)) (recursion_depth : Nat) :
    TravState :=
  if recursion_depth > 10 then st
  else
    match fuel with
    | 0 => st
    | fuel + 1 =>
      match node with
      | .field field_name loc selection_set =>
        let schema_field_key := schema_field_map_key parent_type field_name
        let old_field := old_field_lookup parent_type schema_field_key
        let new_parent_type := match parent_type with
          | some pt => new_schema.get_type pt.name
          | none => none
        let new_field := new_field_lookup new_parent_type schema_field_key field_name
        let lc := node_location loc start_line
        let parent_type_name := match parent_type with
          | some pt => pt.name
          | none => ""
        let st3 := emit_field_findings file schema_name st check_removed_and_added
          old_field new_field parent_type_name field_name lc.1 lc.2
        -- Traverse selection set
        match selection_set with
        | some sels =>
          let field_type : Option GType :=
            match old_field with
            | some f => some f.type
            | none =>
              match new_field with
              | some f => some f.type
              | none => none
          let type_name := gtypeName field_type
          let schema_type_old := match type_name with
            | some n => old_schema.get_type n
            | none => none
          let schema_type_new := match type_name with
            | some n => new_schema.get_type n
            | none => none
          match schema_type_old, schema_type_new with
          | none, none => st3
          | _, _ =>
            sels.foldl (fun acc sel =>
              traverse_go fuel sel (pyOr schema_type_old schema_type_new)
                old_schema new_schema schema_name start_line file acc
                check_removed_and_added fragment_definitions (recursion_depth + 1)) st3
        | none => st3
      | .inlineFragment type_condition selection_set =>
        match type_condition with
        | some type_name =>
          let frag_type_old := old_schema.get_type type_name
          let frag_type_new := new_schema.get_type type_name
          match selection_set with
          | some sels =>
            sels.foldl (fun acc sel =>
              traverse_go fuel sel (pyOr frag_type_old frag_type_new)
                old_schema new_schema schema_name start_line file acc
                check_removed_and_added fragment_definitions (recursion_depth + 1)) st
          | none => st
        | none => st
      | .fragmentSpread fragment_name =>
        match fragment_definitions.lookup fragment_name with
        | some fragment_def =>
          let type_name := fragment_def.type_condition
          let frag_type_old := old_schema.get_type type_name
          let frag_type_new := new_schema.get_type type_name
          match fragment_def.selection_set with
          | some sels =>
            sels.foldl (fun acc sel =>
              traverse_go fuel sel (pyOr frag_type_old frag_type_new)
                old_schema new_schema schema_name start_line file acc
                check_removed_and_added fragment_definitions (recursion_depth + 1)) st
          | none => st
        | none => st

/-- `traverse_schema` (src/validator.py:1042-1248) with the source's
signature; `seen`/`warnings` are combined into `st`. -/
def traverse_schema (node : SelNode) (parent_type : Option TypeDef)
    (old_schema new_schema : Schema) (schema_name : String) (start_line : Nat)
    (file : String) (st : TravState) (check_removed_and_added : Bool := false)
    (fragment_definitions : List (String × FragDef) := [])
    (recursion_depth : Nat := 0) : TravState :=
  traverse_go (11 - recursion_depth) node parent_type old_schema new_schema
    schema_name start_line file st check_removed_and_added fragment_definitions
    recursion_depth

/-! ## `determine_client_type` (src/validator.py:72-169)

The three `re.search` results over `block["raw"]` are inputs of the
embedding (the regex engine is external): `fragment_match` carries the
groups of `fragment\s+(NAME)\s+on\s+(TYPE)`, `op_match` the groups of
`(query|mutation|subscription)\s+(NAME)?\s*[{(]`, and `root_field_match`
the group of `{\s*([A-Za-z0-9_]+)`.  Quantifying over these inputs
quantifies over all possible raw block contents. -/

/-- `root_field in t.fields` guarded by `hasattr(t, "fields")`. -/
def root_has_field (t : Option TypeDef) (root_field : String) : Bool :=
  match t with
  | some td => (td.fields.map Prod.fst).contains root_field
  | none => false

/-- `determine_client_type` (src/validator.py:72-169). -/
def determine_client_type
    (fragment_match : Option (String × String))
    (op_match : Option (String × Option String))
    (root_field_match : Option String)
    (old_admin_schema : Option Schema := none)
    (old_storefront_schema : Option Schema := none) : String :=
  let op_type := match op_match with
    | some (t, _) => some t
    | none => none
  match fragment_match with
  | some (_, fragment_type) =>
    -- fragment path: "if old_admin_schema is None or old_storefront_schema is None"
    match old_admin_schema, old_storefront_schema with
    | some adminS, some storeS =>
      let admin_has_type := (adminS.get_type fragment_type).isSome
      let storefront_has_type := (storeS.get_type fragment_type).isSome
      if admin_has_type && !storefront_has_type then "Admin"
      else if storefront_has_type && !admin_has_type then "Storefront"
      else "Unknown"
    | _, _ => "Unknown"
  | none =>
    let root_field := root_field_match
    -- operation path: same None check before any schema access
    match old_admin_schema, old_storefront_schema with
    | some adminS, some storeS =>
      let admin_root := pyOr adminS.query_type
        (pyOr (adminS.get_type "QueryRoot") (adminS.get_type "Query"))
      let storefront_root := pyOr storeS.query_type
        (pyOr (storeS.get_type "QueryRoot") (storeS.get_type "Query"))
      let admin_mut := pyOr adminS.mutation_type (adminS.get_type "Mutation")
      let storefront_mut := pyOr storeS.mutation_type (storeS.get_type "Mutation")
      let admin_sub := pyOr adminS.subscription_type (adminS.get_type "Subscription")
      let storefront_sub := pyOr storeS.subscription_type (storeS.get_type "Subscription")
      match op_type, root_field with
      | some ot, some rf =>
        if ot = "query" then
          let in_admin := root_has_field admin_root rf
          let in_storefront := root_has_field storefront_root rf
          if in_admin && !in_storefront then "Admin"
          else if in_storefront && !in_admin then "Storefront"
          else "Unknown"
        else if ot = "mutation" then
          let in_admin := root_has_field admin_mut rf
          let in_storefront := root_has_field storefront_mut rf
          if in_admin && !in_storefront then "Admin"
          else if in_storefront && !in_admin then "Storefront"
          else "Unknown"
        else if ot = "subscription" then
          let in_admin := root_has_field admin_sub rf
          let in_storefront := root_has_field storefront_sub rf
          if in_admin && !in_storefront then "Admin"
          else if in_storefront && !in_admin then "Storefront"
          else "Unknown"
        else "Unknown"
      | _, _ => "Unknown"
    | _, _ => "Unknown"

/-! ## The two walk dispatchers

`check_deprecated_and_removed_fields` (src/validator.py:1393-1461) walks
an operation's selections against the Admin pair, the Storefront pair, or
— when the client type is anything else ("Unknown") — both pairs into the
same `seen`/`warnings` state.

`check_surface_validation` (src/validator.py:1696-1743) instead picks a
single `(old_schema, new_schema)` pair per block and walks only that pair;
for an unknown client type it keeps the Admin pair. -/

/-- The inner `get_root_type` of `check_deprecated_and_removed_fields`
(src/validator.py:1367-1390); `str(operation).lower().endswith(...)` is
modelled on the operation's value string, which the enum's `str()` form
also ends with. -/
def get_root_type (operation : String) (schema : Schema) : Option TypeDef :=
  let op_str := pyLower operation
  if strEndsWith op_str "query" then
    pyOr schema.query_type (pyOr (schema.get_type "QueryRoot") (schema.get_type "Query"))
  else if strEndsWith op_str "mutation" then
    pyOr schema.mutation_type (schema.get_type "Mutation")
  else if strEndsWith op_str "subscription" then
    pyOr schema.subscription_type (schema.get_type "Subscription")
  else none

/-- The operation dispatch of `check_deprecated_and_removed_fields`
(src/validator.py:1396-1461): Admin pair, Storefront pair, or both. -/
def process_operation_block (block_client_type : String) (op_type : String)
    (sels : List SelNode)
    (old_admin_schema old_storefront_schema new_admin_schema new_storefront_schema : Schema)
    (start_line : Nat) (file : String) (st : TravState)
    (global_fragment_definitions : List (String × FragDef)) : TravState :=
  let admin_root := get_root_type op_type old_admin_schema
  let storefront_root := get_root_type op_type old_storefront_schema
  if block_client_type = "Admin" then
    sels.foldl (fun acc sel =>
      traverse_schema sel admin_root old_admin_schema new_admin_schema "Admin"
        start_line file acc true global_fragment_definitions 1) st
  else if block_client_type = "Storefront" then
    sels.foldl (fun acc sel =>
      traverse_schema sel storefront_root old_storefront_schema new_storefront_schema
        "Storefront" start_line file acc true global_fragment_definitions 1) st
  else
    sels.foldl (fun acc sel =>
      let acc1 := traverse_schema sel admin_root old_admin_schema new_admin_schema
        "Admin" start_line file acc true global_fragment_definitions 1
      traverse_schema sel storefront_root old_storefront_schema new_storefront_schema
        "Storefront" start_line file acc1 true global_fragment_definitions 1) st

/-- One parsed definition as consumed by the comparison loop of
`check_surface_validation`: its operation value string and selections. -/
structure SurfaceDefn where
  operation : String
  selections : List SelNode

/-- The per-block schema-comparison loop of `check_surface_validation`
(src/validator.py:1700-1743): a fresh `seen` per block; for client type
"Admin"/"Storefront" the matching pair, otherwise the Admin pair. -/
def surface_block_schema_comparison (block_client_type : String)
    (old_admin_schema old_storefront_schema new_admin_schema new_storefront_schema : Schema)
    (document_definitions : List SurfaceDefn) (start_line : Nat)
    (target_file : String) : List Warning :=
  let pair :=
    if block_client_type = "Admin" then (old_admin_schema, new_admin_schema)
    else if block_client_type = "Storefront" then (old_storefront_schema, new_storefront_schema)
    else (old_admin_schema, new_admin_schema)  -- "Try both schemas if client type is unknown"
  let old_schema := pair.1
  let new_schema := pair.2
  (document_definitions.foldl (fun (st : TravState) (defn : SurfaceDefn) =>
      let op_type := defn.operation
      let root_type :=
        if op_type = "query" then
          pyOr (old_schema.get_type "QueryRoot") (old_schema.get_type "Query")
        else if op_type = "mutation" then old_schema.get_type "Mutation"
        else if op_type = "subscription" then
          pyOr (old_schema.get_type "Subscription")
            (pyOr (old_schema.get_type "SubscriptionRoot") old_schema.subscription_type)
        else none
      defn.selections.foldl (fun acc sel =>
        traverse_schema sel root_type old_schema new_schema block_client_type
          start_line target_file acc true [] 0) st)
    ⟨[], []⟩).warnings

/-! ## The supersede step of `check_surface_validation`
(src/validator.py:1745-1788) -/

/-- `schema_comparison_map[(file, line, column)]`: the dict is built by
iterating the warnings in order, a later warning overwriting an earlier
one at the same location, hence the reverse search. -/
def schema_comparison_lookup (schema_comparison_warnings : List Warning)
    (file : String) (line column : Nat) : Option Warning :=
  schema_comparison_warnings.reverse.find? (fun w =>
    w.file == file && w.line == line && w.column == column)

/-- The replacement loop (src/validator.py:1778-1785): a warning at the
same `(file, line, column)` as a schema-comparison finding takes that
finding's message and level; all other warnings pass through unchanged. -/
def replace_with_schema_comparison
    (graphql_warnings schema_comparison_warnings : List Warning) : List Warning :=
  graphql_warnings.map (fun warning =>
    match schema_comparison_lookup schema_comparison_warnings
        warning.file warning.line warning.column with
    | some schema_warning =>
      { warning with message := schema_warning.message, level := schema_warning.level }
    | none => warning)

/-! ## The extractor: Python AST fragments read by
`extract_string_and_line_from_node` (src/extractor.py:336-393) and
`resolve_variable_from_source` (src/extractor.py:278-311)

The Python `ast` module is the external parser; its nodes are modelled by
`PyExpr` with exactly the shapes the source distinguishes, and a parsed
module is the list of its `ast.Assign` nodes in `ast.walk` order. -/

/-- One value of an `ast.JoinedStr` (f-string): a literal piece or a
`FormattedValue` whose inner expression is a `Name`, an `Attribute`, or
anything else. -/
inductive FStringPart where
  | strPart (value : String)
  | formattedName (id : String)
  | formattedAttribute
  | formattedOther
  | otherPart
deriving Repr

/-- A Python expression as distinguished by the extractor. -/
inductive PyExpr where
  | constStr (value : String) (lineno end_lineno : Option Nat)
  | constOther (lineno end_lineno : Option Nat)
  | joinedStr (values : List FStringPart) (lineno end_lineno : Option Nat)
  | binAdd (left right : PyExpr) (lineno end_lineno : Option Nat)
  | name (id : String) (lineno end_lineno : Option Nat)
  | otherExpr (lineno end_lineno : Option Nat)
deriving Repr

/-- `getattr(node, "lineno", None)`. -/
def PyExpr.getLineno : PyExpr → Option Nat
  | .constStr _ li _ => li
  | .constOther li _ => li
  | .joinedStr _ li _ => li
  | .binAdd _ _ li _ => li
  | .name _ li _ => li
  | .otherExpr li _ => li

/-- `getattr(node, "end_lineno", None)`. -/
def PyExpr.getEndLineno : PyExpr → Option Nat
  | .constStr _ _ el => el
  | .constOther _ el => el
  | .joinedStr _ _ el => el
  | .binAdd _ _ _ el => el
  | .name _ _ el => el
  | .otherExpr _ el => el

/-- An assignment target (`ast.Name` or anything else). -/
inductive AssignTarget where
  | nameTarget (id : String)
  | otherTarget
deriving Repr

/-- An `ast.Assign` node: its targets and its value expression. -/
structure PyAssign where
  targets : List AssignTarget
  value : PyExpr
deriving Repr

/-- `resolve_variable_from_source` (src/extractor.py:278-311): the walk
over one `ast.Assign` node — return the value when some target is a
`Name` equal to `var_name` and the value is a string constant. -/
def assign_resolves (var_name : String) (a : PyAssign) : Option String :=
  if a.targets.any (fun t =>
      match t with
      | AssignTarget.nameTarget id => id == var_name
      | AssignTarget.otherTarget => false) then
    match a.value with
    | PyExpr.constStr v _ _ => some v
    | _ => none
  else none

/-- `resolve_variable_from_source` (src/extractor.py:278-311): first
matching simple string-literal assignment in `ast.walk` order; `None`
when the variable name is empty, the source is falsy, or nothing
matches. -/
def resolve_variable_from_source (var_name : String)
    (source : Option (List PyAssign)) : Option String :=
  match source with
  | none => none
  | some assigns =>
    if var_name = "" then none
    else assigns.findSome? (assign_resolves var_name)

/-- `extract_string_and_line_from_node` (src/extractor.py:336-393):
returns `(string_value, start_line, end_line)`. -/
def extract_string_and_line_from_node (node : PyExpr)
    (source : Option (List PyAssign) := none) :
    Option String × Option Nat × Option Nat :=
  match node with
  | .constStr v li el => (some v, li, pyOr el li)
  | .joinedStr values li el =>
    -- f-strings: literal pieces kept, formatted values replaced by placeholders
    let parts := values.foldl (fun (acc : List String) v =>
      match v with
      | FStringPart.strPart s => acc ++ [s]
      | FStringPart.formattedName id =>
        acc ++ [if id = "user_id" then "1" else "placeholder_" ++ id]
      | FStringPart.formattedAttribute => acc ++ ["placeholder_value"]
      | FStringPart.formattedOther => acc ++ ["placeholder"]
      | FStringPart.otherPart => acc) []
    (some (String.join parts), li, pyOr el li)
  | .binAdd left right li el =>
    -- string concatenation, resolved recursively
    let lres := extract_string_and_line_from_node left source
    let rres := extract_string_and_line_from_node right source
    let left_start := lres.2.1
    let right_end := rres.2.2
    -- variable operands fall back to resolve_variable_from_source
    let left_val := match lres.1 with
      | some v => some v
      | none =>
        match left with
        | .name id _ _ => resolve_variable_from_source id source
        | _ => none
    let right_val := match rres.1 with
      | some v => some v
      | none =>
        match right with
        | .name id _ _ => resolve_variable_from_source id source
        | _ => none
    -- only return a concatenated result when BOTH parts are available
    match left_val, right_val with
    | some lv, some rv => (some (lv ++ rv), left_start, pyOr right_end left_start)
    | _, _ => (none, li, el)
  | .name _ li el => (none, li, el)
  | .constOther li el => (none, li, el)
  | .otherExpr li el => (none, li, el)

/-! ## `_extract_graphql_defs` (src/extractor.py:1096-1198)

The GraphQL parser is the external collaborator: `parse_fn` returns, for
the cleaned block, either the list of top-level definitions (each with
its `loc` character offsets) or a parse-error message. -/

/-- A top-level GraphQL definition as returned by the parser: an
`OperationDefinitionNode` (operation value string, optional name,
variable names, `loc` offsets) or a `FragmentDefinitionNode`. -/
inductive GqlDefn where
  | operation (op : String) (name : Option String) (vars : List String)
      (loc : Option (Nat × Nat))
  | fragment (name : Option String) (type_condition : String)
      (loc : Option (Nat × Nat))
deriving Repr

/-- One extracted block dict.  Keys a given block type does not carry in
the Python dict keep their default here (`none` / `[]`). -/
structure ExtractedBlock where
  type : String
  name : Option String := none
  vars : List String := []
  type_condition : Option String := none
  raw : String
  start_line : Nat
  end_line : Nat
  error : Option String := none
deriving Repr, DecidableEq

/-- The quote-stripping prologue of `_extract_graphql_defs`
(src/extractor.py:1108-1117). -/
def strip_outer_quotes (block : String) : String :=
  let cleaned_block := pyStrip block
  if (strStartsWith cleaned_block "\"\"\"" && strEndsWith cleaned_block "\"\"\"") ||
     (strStartsWith cleaned_block "\x27\x27\x27" && strEndsWith cleaned_block "\x27\x27\x27") then
    (cleaned_block.drop 3).dropRight 3
  else if (strStartsWith cleaned_block "\"" && strEndsWith cleaned_block "\"") ||
      (strStartsWith cleaned_block "\x27" && strEndsWith cleaned_block "\x27") then
    (cleaned_block.drop 1).dropRight 1
  else cleaned_block

/-- The enumerated search of the error branch: first line (by its
1-based number `idx`) containing the needle. -/
def enum_find_line (lines : List String) (idx : Nat) (needle : String) : Option Nat :=
  match lines with
  | [] => none
  | l :: rest =>
    if strContains l needle then some idx else enum_find_line rest (idx + 1) needle

/-- The best-effort error line of the parse-failure branch
(src/extractor.py:1178-1187): scan the window
`source_lines[max(0, start_line-10) : start_line+10]` for the first line
containing the first 20 characters of the cleaned block. -/
def find_error_line (file_source : Option String) (cleaned_block : String)
    (start_line : Nat) : Nat :=
  match file_source with
  | some fsrc =>
    if fsrc ≠ "" ∧ cleaned_block ≠ "" then
      let source_lines := pySplitLines fsrc
      let window := (source_lines.drop (start_line - 10)).take
        ((start_line + 10) - (start_line - 10))
      match enum_find_line window (max 1 (start_line - 9)) (cleaned_block.take 20) with
      | some i => i
      | none => start_line
    else start_line
  | none => start_line

/-- `_extract_graphql_defs` (src/extractor.py:1096-1198): append one
block per parsed definition with computed line spans; on parse failure
append a single "unknown" block. -/
def _extract_graphql_defs (parse_fn : String → Except String (List GqlDefn))
    (block : String) (start_line end_line : Nat)
    (gql_blocks : List ExtractedBlock) (string_offset : Option Nat := none)
    (file_source : Option String := none) : List ExtractedBlock :=
  let cleaned_block := strip_outer_quotes block
  match parse_fn cleaned_block with
  | Except.ok defs =>
    defs.foldl (fun (blocks : List ExtractedBlock) defn =>
      let loc := match defn with
        | GqlDefn.operation _ _ _ l => l
        | GqlDefn.fragment _ _ l => l
      let rsp : String × Nat × Nat :=
        match loc with
        | some (def_start, def_end) =>
          let definition_content := sliceStr cleaned_block def_start def_end
          let lines_before_definition := countNewlines (cleaned_block.take def_start)
          let lines_in_definition := countNewlines definition_content
          let is_multiline :=
            (cleaned_block.data.contains '\n') ||
            (strStartsWith (pyStrip block) "\"\"\"" && strEndsWith (pyStrip block) "\"\"\"") ||
            (strStartsWith (pyStrip block) "\x27\x27\x27" && strEndsWith (pyStrip block) "\x27\x27\x27")
          let precise_start :=
            if is_multiline then start_line + lines_before_definition + 1 else start_line
          let precise_end := precise_start + lines_in_definition
          match string_offset, file_source with
          | some off, some fsrc =>
            let file_offset := off + def_start
            let file_lines_before := countNewlines (fsrc.take file_offset)
            (definition_content, file_lines_before + 1,
              file_lines_before + 1 + lines_in_definition)
          | _, _ => (definition_content, precise_start, precise_end)
        | none => (cleaned_block, start_line, end_line)
      match defn with
      | GqlDefn.operation op name vars _ =>
        blocks ++ [{ type := op, name := name, vars := vars,
                     raw := rsp.1, start_line := rsp.2.1, end_line := rsp.2.2 }]
      | GqlDefn.fragment name type_condition _ =>
        blocks ++ [{ type := "fragment", name := name,
                     type_condition := some type_condition,
                     raw := rsp.1, start_line := rsp.2.1, end_line := rsp.2.2 }])
      gql_blocks
  | Except.error e =>
    let error_line := find_error_line file_source cleaned_block start_line
    gql_blocks ++ [{ type := "unknown", name := none, vars := [],
                     raw := cleaned_block, start_line := error_line,
                     end_line := error_line, error := some e }]

/-- The `ast.Assign` arm of strategy 4 of `extract_graphql_blocks`
(src/extractor.py:656-686): for each `Name` target, extract the string
value; when its brace counts are positive and balanced, hand it to
`_extract_graphql_defs` with the AST-derived line numbers (no
`string_offset`). -/
def process_assign_node (parse_fn : String → Except String (List GqlDefn))
    (targets : List AssignTarget) (value_node : PyExpr) (node_lineno : Nat)
    (node_end_lineno : Option Nat) (source_tree : Option (List PyAssign))
    (source_text : String) (gql_blocks : List ExtractedBlock) :
    List ExtractedBlock :=
  targets.foldl (fun (blocks : List ExtractedBlock) target =>
    match target with
    | AssignTarget.nameTarget _ =>
      let res := extract_string_and_line_from_node value_node source_tree
      match res.1 with
      | some value =>
        if countChar value '{' > 0 ∧ countChar value '}' > 0 ∧
            countChar value '{' = countChar value '}' then
          let actual_start :=
            (pyOr value_node.getLineno (pyOr res.2.1 (some node_lineno))).getD node_lineno
          let actual_end :=
            (pyOr value_node.getEndLineno
              (pyOr res.2.2 (pyOr node_end_lineno (some node_lineno)))).getD node_lineno
          _extract_graphql_defs parse_fn value actual_start actual_end blocks none
            (some source_text)
        else blocks
      | none => blocks
    | AssignTarget.otherTarget => blocks) gql_blocks

/-! ## Deduplication (src/extractor.py:1201-1259) -/

/-- The comment-removal pass of `normalize_model_body`
(`re.sub(r"#.*", "", raw)`): delete from each `#` up to, but not
including, the next newline.  The Boolean records "currently inside a
comment". -/
def stripCommentsGo : Bool → List Char → List Char
  | _, [] => []
  | false, c :: rest =>
    if c = '#' then stripCommentsGo true rest else c :: stripCommentsGo false rest
  | true, c :: rest =>
    if c = '\n' then c :: stripCommentsGo false rest else stripCommentsGo true rest

/-- `normalize_model_body` (src/extractor.py:1201-1218): strip `#`
comments, then remove all whitespace. -/
def normalize_model_body (raw : String) : String :=
  if raw = "" then ""
  else String.mk ((stripCommentsGo false raw.data).filter (fun c => !(pyIsSpace c)))

/-- The deduplication key of a GraphQL block:
`(block["type"], block["name"], normalize_model_body(block["raw"]))`. -/
def dedup_key (b : ExtractedBlock) : String × Option String × String :=
  (b.type, b.name, normalize_model_body b.raw)

/-- `seen[key] = block` on an insertion-ordered dict: an existing key
keeps its position, a fresh key is appended. -/
def dictInsert (m : List ((String × Option String × String) × ExtractedBlock))
    (k : String × Option String × String) (b : ExtractedBlock) :
    List ((String × Option String × String) × ExtractedBlock) :=
  match m with
  | [] => [(k, b)]
  | (k0, b0) :: rest =>
    if k0 = k then (k0, b) :: rest else (k0, b0) :: dictInsert rest k b

/-- One step of the deduplication loop (src/extractor.py:1251-1257):
keep the incoming block iff its key is fresh or its start line is
strictly smaller than the stored block's. -/
def dedup_step (m : List ((String × Option String × String) × ExtractedBlock))
    (b : ExtractedBlock) :
    List ((String × Option String × String) × ExtractedBlock) :=
  let k := dedup_key b
  match m.lookup k with
  | none => dictInsert m k b
  | some cur => if b.start_line < cur.start_line then dictInsert m k b else m

/-- The GraphQL half of `deduplicate_and_sort_results`
(src/extractor.py:1241-1259): filter the GraphQL block types, fold the
dedup dict, take its values, and sort by start line. -/
def deduplicate_and_sort_results (results : List ExtractedBlock) :
    List ExtractedBlock :=
  let graphql_blocks := results.filter (fun r =>
    r.type ∈ ["query", "mutation", "subscription", "fragment", "unknown"])
  let seen_graphql := graphql_blocks.foldl dedup_step []
  let deduped_graphql := seen_graphql.map Prod.snd
  deduped_graphql.mergeSort (fun a b => a.start_line ≤ b.start_line)

/-- `st2` extends `st` by a duplicate-free batch of fresh keys, with one
appended warning per fresh key. -/
def TravExtends (schema_name : String) (st st2 : TravState) : Prop :=
  ∃ ks : List WKey, ks.Nodup ∧ (∀ k ∈ ks, k ∉ st.seen) ∧
    st2.seen = ks ++ st.seen ∧
    st2.warnings = st.warnings ++ ks.reverse.map (warning_of_key schema_name "warning")

/-- The resolution of one operand of a string concatenation
(src/extractor.py:375-382): the recursively extracted value, with a
`Name` operand falling back to `resolve_variable_from_source`. -/
def resolved_operand (e : PyExpr) (source : Option (List PyAssign)) : Option String :=
  match (extract_string_and_line_from_node e source).1 with
  | some v => some v
  | none =>
    match e with
    | .name id _ _ => resolve_variable_from_source id source
    | _ => none

/-- The invariant of the dedup fold: duplicate-free keys; each entry
stores its own key and a processed block whose start line is minimal
among processed blocks of that key; every processed block's key has an
entry. -/
def DedupInv (m : List ((String × Option String × String) × ExtractedBlock))
    (processed : List ExtractedBlock) : Prop :=
  (m.map Prod.fst).Nodup ∧
  (∀ p ∈ m, dedup_key p.2 = p.1 ∧ p.2 ∈ processed ∧
    ∀ b ∈ processed, dedup_key b = p.1 → p.2.start_line ≤ b.start_line) ∧
  (∀ b ∈ processed, ∃ p ∈ m, p.1 = dedup_key b)


/-! ## The per-key deduplication discipline of the walk

Every warning the walk appends corresponds to a fresh key added to
`seen`, and the freshly added keys are pairwise distinct: the walk never
emits two findings with the same
`(file, line, column, type, field, reason, category)` key. -/

theorem travExtends_refl (schema_name : String) (st : TravState) :
    TravExtends schema_name st st := by
  exact ⟨[], by simp, by simp, by simp, by simp⟩

theorem travExtends_trans {schema_name : String} {s1 s2 s3 : TravState}
    (h12 : TravExtends schema_name s1 s2) (h23 : TravExtends schema_name s2 s3) :
    TravExtends schema_name s1 s3 := by
  obtain ⟨ks1, hnd1, hf1, hs1, hw1⟩ := h12
  obtain ⟨ks2, hnd2, hf2, hs2, hw2⟩ := h23
  refine ⟨ks2 ++ ks1, ?_, ?_, ?_, ?_⟩
  · rw [List.nodup_append]
    refine ⟨hnd2, hnd1, ?_⟩
    intro k hk2 hk1
    exact hf2 k hk2 (by rw [hs1]; exact List.mem_append_left _ hk1)
  · intro k hk
    rcases List.mem_append.mp hk with h2 | h1
    · intro hmem
      exact hf2 k h2 (by rw [hs1]; exact List.mem_append_right _ hmem)
    · exact hf1 k h1
  · rw [hs2, hs1, List.append_assoc]
  · rw [hw2, hw1, List.reverse_append, List.map_append, List.append_assoc]

theorem travExtends_add_warning (file schema_name : String) (st : TravState)
    (reason schema_type schema_field kind : String) (line column : Nat) :
    TravExtends schema_name st
      (add_warning file schema_name st "warning" reason schema_type schema_field
        kind line column) := by
  unfold add_warning
  by_cases h : (⟨file, line, column, schema_type, schema_field, reason, kind⟩ : WKey) ∈ st.seen
  · simp only [h, if_true]
    exact travExtends_refl _ _
  · simp only [h, if_false]
    exact ⟨[⟨file, line, column, schema_type, schema_field, reason, kind⟩],
      by simp, by simpa using h, by simp, by simp⟩

theorem travExtends_foldl {schema_name : String}
    {f : TravState → SelNode → TravState}
    (h : ∀ st sel, TravExtends schema_name st (f st sel)) :
    ∀ (sels : List SelNode) (st : TravState),
      TravExtends schema_name st (sels.foldl f st) := by
  intro sels
  induction sels with
  | nil => intro st; simpa using travExtends_refl _ _
  | cons s rest ih =>
    intro st
    simp only [List.foldl_cons]
    exact travExtends_trans (h st s) (ih (f st s))


theorem travExtends_emit_field_findings (file schema_name : String) (st : TravState)
    (cra : Bool) (old_field new_field : Option FieldDef)
    (parent_type_name field_name : String) (line column : Nat) :
    TravExtends schema_name st
      (emit_field_findings file schema_name st cra old_field new_field
        parent_type_name field_name line column) := by
  have step : ∀ (s : TravState) (c : Bool) (r ty fl kd : String) (l cc : Nat),
      TravExtends schema_name s
        (if c then add_warning file schema_name s "warning" r ty fl kd l cc else s) := by
    intro s c r ty fl kd l cc
    cases c with
    | false => simpa using travExtends_refl schema_name s
    | true => simpa using travExtends_add_warning file schema_name s r ty fl kd l cc
  have h1 : ∀ (s : TravState),
      TravExtends schema_name s
        (match old_field with
         | some f =>
           if f.is_deprecated ||
               (match f.deprecation_reason with
                | some r => r != ""
                | none => false) then
             add_warning file schema_name s "warning"
               ("is deprecated in old schema: " ++
                 (match f.deprecation_reason with
                  | some r => r
                  | none => "None"))
               parent_type_name field_name "DEPRECATED" line column
           else s
         | none => s) := by
    intro s
    cases old_field with
    | none => exact travExtends_refl _ _
    | some f => exact step s _ _ _ _ _ _ _
  exact travExtends_trans (travExtends_trans (h1 st) (step _ _ _ _ _ _ _ _))
    (step _ _ _ _ _ _ _ _)

theorem travExtends_traverse_go (fuel : Nat) :
    ∀ (node : SelNode) (parent_type : Option TypeDef)
      (old_schema new_schema : Schema) (schema_name : String) (start_line : Nat)
      (file : String) (st : TravState) (cra : Bool)
      (fragment_definitions : List (String × FragDef)) (recursion_depth : Nat),
      TravExtends schema_name st
        (traverse_go fuel node parent_type old_schema new_schema schema_name
          start_line file st cra fragment_definitions recursion_depth) := by
  induction fuel with
  | zero =>
    intro node pt os ns sn sl file st cra fd depth
    unfold traverse_go
    split
    · exact travExtends_refl _ _
    · exact travExtends_refl _ _
  | succ fuel ih =>
    intro node pt os ns sn sl file st cra fd depth
    have hfold : ∀ (sels : List SelNode) (p : Option TypeDef) (s : TravState) (d : Nat),
        TravExtends sn s
          (sels.foldl (fun acc sel =>
            traverse_go fuel sel p os ns sn sl file acc cra fd d) s) := by
      intro sels p s d
      exact travExtends_foldl (fun s0 sel => ih sel p os ns sn sl file s0 cra fd d) sels s
    unfold traverse_go
    split
    · exact travExtends_refl _ _
    · cases node with
      | field field_name loc selection_set =>
        cases selection_set with
        | none => exact travExtends_emit_field_findings _ _ _ _ _ _ _ _ _ _
        | some sels =>
          dsimp only
          split
          · exact travExtends_emit_field_findings _ _ _ _ _ _ _ _ _ _
          · exact travExtends_trans
              (travExtends_emit_field_findings _ _ _ _ _ _ _ _ _ _)
              (hfold _ _ _ _)
      | inlineFragment type_condition selection_set =>
        cases type_condition with
        | none => exact travExtends_refl _ _
        | some tn =>
          cases selection_set with
          | none => exact travExtends_refl _ _
          | some sels => exact hfold _ _ _ _
      | fragmentSpread fragment_name =>
        dsimp only
        cases hlk : fd.lookup fragment_name with
        | none => simp only [hlk]; exact travExtends_refl _ _
        | some fragment_def =>
          simp only [hlk]
          cases fragment_def.selection_set with
          | none => exact travExtends_refl _ _
          | some sels => exact hfold _ _ _ _

/-- `TravExtends` for `traverse_schema` at any depth. -/
theorem travExtends_traverse_schema (node : SelNode) (parent_type : Option TypeDef)
    (old_schema new_schema : Schema) (schema_name : String) (start_line : Nat)
    (file : String) (st : TravState) (cra : Bool)
    (fragment_definitions : List (String × FragDef)) (recursion_depth : Nat) :
    TravExtends schema_name st
      (traverse_schema node parent_type old_schema new_schema schema_name
        start_line file st cra fragment_definitions recursion_depth) :=
  travExtends_traverse_go _ node parent_type old_schema new_schema schema_name
    start_line file st cra fragment_definitions recursion_depth

/-! ## Claim theorems -/

/-- C4: the schema diff walk terminates on every selection graph, a
fragment that spreads itself included: the recursion is cut by the
explicit depth counter with hard cap 10 — any call at
`recursion_depth > 10` returns the state unchanged (the branch is
silently dropped, no error) — and on a concrete directly
self-spreading fragment the walk evaluates (terminates) to the
unchanged state. -/
theorem traverse_schema_depth_cap_and_cycle_safety :
    (∀ (node : SelNode) (parent_type : Option TypeDef)
       (old_schema new_schema : Schema) (schema_name : String) (start_line : Nat)
       (file : String) (st : TravState) (cra : Bool)
       (fragment_definitions : List (String × FragDef)) (recursion_depth : Nat),
       recursion_depth > 10 →
       traverse_schema node parent_type old_schema new_schema schema_name
         start_line file st cra fragment_definitions recursion_depth = st) ∧
    traverse_schema (SelNode.fragmentSpread "SelfFrag") (some ⟨"T", []⟩)
      ⟨[("T", ⟨"T", [("a", ⟨false, none, GType.base "String"⟩)]⟩)], none, none, none⟩
      ⟨[("T", ⟨"T", [("a", ⟨false, none, GType.base "String"⟩)]⟩)], none, none, none⟩
      "Admin" 1 "app.py" ⟨[], []⟩ true
      [("SelfFrag", ⟨"T", some [SelNode.fragmentSpread "SelfFrag"]⟩)] 1 = ⟨[], []⟩ := by
  constructor
  · intro node pt os ns sn sl file st cra fd depth h
    unfold traverse_schema traverse_go
    rw [if_pos h]
  · rfl

/-- Witness for the depth-cap hypothesis of
`traverse_schema_depth_cap_and_cycle_safety`: a concrete call at depth 11
returns its state unchanged. -/
theorem traverse_schema_depth_cap_witness :
    (11 > 10) ∧
    traverse_schema (SelNode.field "a" none none) none ⟨[], none, none, none⟩
      ⟨[], none, none, none⟩ "Admin" 1 "app.py" ⟨[], []⟩ true [] 11 = ⟨[], []⟩ :=
  ⟨by decide,
    traverse_schema_depth_cap_and_cycle_safety.1 (SelNode.field "a" none none) none
      ⟨[], none, none, none⟩ ⟨[], none, none, none⟩ "Admin" 1 "app.py" ⟨[], []⟩ true []
      11 (by decide)⟩

/-- C2: a field selection present (case-insensitively) in the old
parent type's field map but absent from the corresponding new-schema
type yields exactly one REMOVED finding at its reference site — the walk
appends precisely that one warning and records its key — and, for every
walk whatsoever, the appended warnings correspond one-to-one to a
duplicate-free list of fresh `(file, line, column, type, field, reason,
category)` keys, so no two findings (REMOVED ones in particular) are
ever emitted for the same key. -/
theorem removed_field_exactly_one_finding :
    (∀ (field_name : String) (loc : Option (Nat × Nat)) (pt : TypeDef) (k : String)
       (fd : FieldDef) (old_schema new_schema : Schema) (schema_name : String)
       (start_line : Nat) (file : String) (st : TravState)
       (fragment_definitions : List (String × FragDef)) (recursion_depth : Nat),
       recursion_depth ≤ 10 →
       schema_field_map_key (some pt) field_name = some k →
       pt.fields.lookup k = some fd →
       fd.is_deprecated = false →
       fd.deprecation_reason = none →
       new_field_lookup (new_schema.get_type pt.name) (some k) field_name = none →
       (⟨file, (node_location loc start_line).1, (node_location loc start_line).2,
          pt.name, field_name, "was removed in new schema", "REMOVED"⟩ : WKey) ∉ st.seen →
       traverse_schema (SelNode.field field_name loc none) (some pt) old_schema
           new_schema schema_name start_line file st true fragment_definitions
           recursion_depth =
         ⟨(⟨file, (node_location loc start_line).1, (node_location loc start_line).2,
             pt.name, field_name, "was removed in new schema", "REMOVED"⟩ : WKey) :: st.seen,
          st.warnings ++ [warning_of_key schema_name "warning"
            ⟨file, (node_location loc start_line).1, (node_location loc start_line).2,
              pt.name, field_name, "was removed in new schema", "REMOVED"⟩]⟩) ∧
    (∀ (node : SelNode) (parent_type : Option TypeDef)
       (old_schema new_schema : Schema) (schema_name : String) (start_line : Nat)
       (file : String) (st : TravState) (cra : Bool)
       (fragment_definitions : List (String × FragDef)) (recursion_depth : Nat),
       TravExtends schema_name st
         (traverse_schema node parent_type old_schema new_schema schema_name
           start_line file st cra fragment_definitions recursion_depth)) := by
  constructor
  · intro field_name loc pt k fd os ns sn sl file st fragd depth hdepth hkey hlook
      hdep hreason hnew hseen
    unfold traverse_schema
    have hfuel : 11 - depth = (10 - depth) + 1 := by omega
    rw [hfuel]
    unfold traverse_go
    rw [if_neg (by omega)]
    simp [emit_field_findings, old_field_lookup, hkey, hlook, hdep, hreason,
      add_warning, hnew, hseen]
  · intro node pt os ns sn sl file st cra fd depth
    exact travExtends_traverse_schema node pt os ns sn sl file st cra fd depth

/-- Witness for `removed_field_exactly_one_finding`: the spec's example
scenario — old schema has `Customer.email`, new schema omits it — yields
exactly the one REMOVED finding. -/
theorem removed_field_exactly_one_finding_witness :
    (1 : Nat) ≤ 10 ∧
    traverse_schema (SelNode.field "email" none none)
      (some ⟨"Customer", [("email", ⟨false, none, GType.base "String"⟩)]⟩)
      ⟨[("Customer", ⟨"Customer", [("email", ⟨false, none, GType.base "String"⟩)]⟩)],
        none, none, none⟩
      ⟨[("Customer", ⟨"Customer", []⟩)], none, none, none⟩
      "Storefront" 1 "app.py" ⟨[], []⟩ true [] 1 =
    ⟨[⟨"app.py", 1, 1, "Customer", "email", "was removed in new schema", "REMOVED"⟩],
     [warning_of_key "Storefront" "warning"
       ⟨"app.py", 1, 1, "Customer", "email", "was removed in new schema", "REMOVED"⟩]⟩ :=
  ⟨by decide, by
    have h := removed_field_exactly_one_finding.1 "email" none
      ⟨"Customer", [("email", ⟨false, none, GType.base "String"⟩)]⟩ "email"
      ⟨false, none, GType.base "String"⟩
      ⟨[("Customer", ⟨"Customer", [("email", ⟨false, none, GType.base "String"⟩)]⟩)],
        none, none, none⟩
      ⟨[("Customer", ⟨"Customer", []⟩)], none, none, none⟩
      "Storefront" 1 "app.py" ⟨[], []⟩ [] 1
      (by decide) (by decide) rfl rfl rfl rfl (by simp)
    simpa [node_location] using h⟩

theorem mem_warnings_add_warning (file schema_name : String) (st : TravState)
    (level reason schema_type schema_field kind : String) (line column : Nat)
    {w : Warning} (h : w ∈ st.warnings) :
    w ∈ (add_warning file schema_name st level reason schema_type schema_field
      kind line column).warnings := by
  simp only [add_warning]
  split
  · exact h
  · exact List.mem_append_left _ h

/-- C3: a field selection whose old-schema field carries a deprecation
flag or a (truthy) deprecation reason makes the walk emit a DEPRECATED
finding, and whenever a deprecation reason string is present the
finding's message contains that reason text. -/
theorem deprecated_field_message_contains_reason
    (field_name : String) (loc : Option (Nat × Nat)) (pt : TypeDef) (k : String)
    (fd : FieldDef) (old_schema new_schema : Schema) (schema_name : String)
    (start_line : Nat) (file : String) (st : TravState) (cra : Bool)
    (fragment_definitions : List (String × FragDef)) (recursion_depth : Nat)
    (hdepth : recursion_depth ≤ 10)
    (hkey : schema_field_map_key (some pt) field_name = some k)
    (hlook : pt.fields.lookup k = some fd)
    (hdep : fd.is_deprecated = true ∨ ∃ r, fd.deprecation_reason = some r ∧ r ≠ "")
    (hseen : (⟨file, (node_location loc start_line).1,
        (node_location loc start_line).2, pt.name, field_name,
        "is deprecated in old schema: " ++
          (match fd.deprecation_reason with
           | some r => r
           | none => "None"),
        "DEPRECATED"⟩ : WKey) ∉ st.seen) :
    warning_of_key schema_name "warning"
        ⟨file, (node_location loc start_line).1, (node_location loc start_line).2,
          pt.name, field_name,
          "is deprecated in old schema: " ++
            (match fd.deprecation_reason with
             | some r => r
             | none => "None"),
          "DEPRECATED"⟩ ∈
      (traverse_schema (SelNode.field field_name loc none) (some pt) old_schema
        new_schema schema_name start_line file st cra fragment_definitions
        recursion_depth).warnings ∧
    (∀ r, fd.deprecation_reason = some r →
      ∃ pre post,
        (warning_of_key schema_name "warning"
          ⟨file, (node_location loc start_line).1, (node_location loc start_line).2,
            pt.name, field_name,
            "is deprecated in old schema: " ++
              (match fd.deprecation_reason with
               | some r => r
               | none => "None"),
            "DEPRECATED"⟩).message = pre ++ r ++ post) := by
  constructor
  · unfold traverse_schema
    have hfuel : 11 - recursion_depth = (10 - recursion_depth) + 1 := by omega
    rw [hfuel]
    unfold traverse_go
    rw [if_neg (by omega)]
    have hcond : (fd.is_deprecated ||
        (match fd.deprecation_reason with
         | some r => r != ""
         | none => false)) = true := by
      rcases hdep with h | ⟨r, hr, hne⟩
      · simp [h]
      · simp [hr, hne]
    simp only [emit_field_findings, old_field_lookup, hkey, hlook, hcond, if_true]
    have hbase : warning_of_key schema_name "warning"
        ⟨file, (node_location loc start_line).1, (node_location loc start_line).2,
          pt.name, field_name,
          "is deprecated in old schema: " ++
            (match fd.deprecation_reason with
             | some r => r
             | none => "None"),
          "DEPRECATED"⟩ ∈
        (add_warning file schema_name st "warning"
          ("is deprecated in old schema: " ++
            (match fd.deprecation_reason with
             | some r => r
             | none => "None"))
          pt.name field_name "DEPRECATED" (node_location loc start_line).1
          (node_location loc start_line).2).warnings := by
      simp only [add_warning]
      rw [if_neg hseen]
      simp
    split
    · apply mem_warnings_add_warning
      split
      · exact mem_warnings_add_warning _ _ _ _ _ _ _ _ _ _ hbase
      · exact hbase
    · split
      · exact mem_warnings_add_warning _ _ _ _ _ _ _ _ _ _ hbase
      · exact hbase
  · intro r hr
    refine ⟨"[DEPRECATED] Field \x27" ++ field_name ++ "\x27 in type \x27" ++ pt.name
      ++ "\x27 " ++ "is deprecated in old schema: ",
      (if schema_name = "Admin" || schema_name = "Storefront" then
        " (" ++ schema_name ++ ")" else ""), ?_⟩
    simp only [warning_of_key, warning_message, hr, ← String.append_assoc]
    simp

/-- Witness for `deprecated_field_message_contains_reason`: the spec's
example — `Customer.email` deprecated with reason "Use
defaultEmailAddress" — produces a DEPRECATED finding whose message
carries the reason. -/
theorem deprecated_field_message_contains_reason_witness :
    (1 : Nat) ≤ 10 ∧
    warning_of_key "Admin" "warning"
        ⟨"app.py", 1, 1, "Customer", "email",
          "is deprecated in old schema: Use defaultEmailAddress", "DEPRECATED"⟩ ∈
      (traverse_schema (SelNode.field "email" none none)
        (some ⟨"Customer",
          [("email", ⟨false, some "Use defaultEmailAddress", GType.base "String"⟩)]⟩)
        ⟨[], none, none, none⟩ ⟨[], none, none, none⟩ "Admin" 1 "app.py" ⟨[], []⟩
        true [] 1).warnings :=
  ⟨by decide, by
    have h := deprecated_field_message_contains_reason "email" none
      ⟨"Customer",
        [("email", ⟨false, some "Use defaultEmailAddress", GType.base "String"⟩)]⟩
      "email" ⟨false, some "Use defaultEmailAddress", GType.base "String"⟩
      ⟨[], none, none, none⟩ ⟨[], none, none, none⟩ "Admin" 1 "app.py" ⟨[], []⟩
      true [] 1 (by decide) (by decide) rfl
      (Or.inr ⟨"Use defaultEmailAddress", rfl, by decide⟩) (by simp)
    exact h.1⟩

/-- C10: `determine_client_type` returns "Unknown" whenever either
`old_admin_schema` or `old_storefront_schema` is `None` (their default),
regardless of the block's raw content — i.e. for every possible outcome
of the regex searches over the raw text — on both the fragment path and
the operation path. -/
theorem determine_client_type_unknown_without_schemas
    (fragment_match : Option (String × String))
    (op_match : Option (String × Option String))
    (root_field_match : Option String)
    (old_admin_schema old_storefront_schema : Option Schema)
    (h : old_admin_schema = none ∨ old_storefront_schema = none) :
    determine_client_type fragment_match op_match root_field_match
      old_admin_schema old_storefront_schema = "Unknown" := by
  unfold determine_client_type
  rcases h with h | h
  · subst h
    cases old_storefront_schema <;> rcases fragment_match with _ | ⟨n, t⟩ <;> rfl
  · subst h
    cases old_admin_schema <;> rcases fragment_match with _ | ⟨n, t⟩ <;> rfl

/-- Witness for `determine_client_type_unknown_without_schemas`: the
default call (no schemas) on a block that looks like an Admin query
still yields "Unknown". -/
theorem determine_client_type_unknown_without_schemas_witness :
    ((none : Option Schema) = none ∨ (none : Option Schema) = none) ∧
    determine_client_type none (some ("query", some "GetOrders")) (some "orders")
      none none = "Unknown" :=
  ⟨Or.inl rfl,
    determine_client_type_unknown_without_schemas none
      (some ("query", some "GetOrders")) (some "orders") none none (Or.inl rfl)⟩

/-- C1: contrary to the claim, the unknown-client path of
`check_surface_validation` does NOT invoke the diff walk against both
surface pairs.  Concretely, for the block `query { shop }` where only
the Storefront schemas define `QueryRoot.shop` (and the new Storefront
schema removed it): (i) the classification made at
src/validator.py:1699 — `determine_client_type(source, block)` with the
schema arguments left at their `None` defaults — is "Unknown";
(ii) the schema-comparison loop of `check_surface_validation`
(src/validator.py:1696-1743) then walks only the Admin pair and
produces no finding; while (iii) the operation dispatch of
`check_deprecated_and_removed_fields` (src/validator.py:1432-1461),
which does walk both surfaces for "Unknown", produces the Storefront
REMOVED finding.  So the claim holds at 1432-1461 but is violated by
1696-1743, where a single surface is silently picked. -/
theorem surface_validation_unknown_drops_storefront_findings :
    determine_client_type none (some ("query", none)) (some "shop") none none
        = "Unknown" ∧
    surface_block_schema_comparison "Unknown"
        ⟨[("QueryRoot", ⟨"QueryRoot", []⟩)], none, none, none⟩
        ⟨[("QueryRoot", ⟨"QueryRoot", [("shop", ⟨false, none, GType.base "Shop"⟩)]⟩)],
          none, none, none⟩
        ⟨[("QueryRoot", ⟨"QueryRoot", []⟩)], none, none, none⟩
        ⟨[("QueryRoot", ⟨"QueryRoot", []⟩)], none, none, none⟩
        [⟨"query", [SelNode.field "shop" none none]⟩] 1 "app.py" = [] ∧
    process_operation_block "Unknown" "query" [SelNode.field "shop" none none]
        ⟨[("QueryRoot", ⟨"QueryRoot", []⟩)], none, none, none⟩
        ⟨[("QueryRoot", ⟨"QueryRoot", [("shop", ⟨false, none, GType.base "Shop"⟩)]⟩)],
          none, none, none⟩
        ⟨[("QueryRoot", ⟨"QueryRoot", []⟩)], none, none, none⟩
        ⟨[("QueryRoot", ⟨"QueryRoot", []⟩)], none, none, none⟩
        1 "app.py" ⟨[], []⟩ [] =
      ⟨[⟨"app.py", 1, 1, "QueryRoot", "shop", "was removed in new schema", "REMOVED"⟩],
       [warning_of_key "Storefront" "warning"
         ⟨"app.py", 1, 1, "QueryRoot", "shop", "was removed in new schema", "REMOVED"⟩]⟩ := by
  refine ⟨rfl, rfl, ?_⟩
  decide

/-- C9: in the supersede step of `check_surface_validation`, every
validation warning located at the same `(file, line, column)` as a
schema-comparison finding takes over that finding's message text and
level (keeping its own location), every warning at a location with no
schema-comparison finding passes through unchanged, and no warning is
dropped or added. -/
theorem pattern_warnings_superseded_at_schema_locations
    (graphql_warnings schema_comparison_warnings : List Warning) (i : Nat)
    (h : i < graphql_warnings.length) :
    (replace_with_schema_comparison graphql_warnings
        schema_comparison_warnings).length = graphql_warnings.length ∧
    (∀ (h2 : i < (replace_with_schema_comparison graphql_warnings
        schema_comparison_warnings).length),
      ((∀ sw ∈ schema_comparison_warnings,
          ¬(sw.file = (graphql_warnings.get ⟨i, h⟩).file ∧
            sw.line = (graphql_warnings.get ⟨i, h⟩).line ∧
            sw.column = (graphql_warnings.get ⟨i, h⟩).column)) →
        (replace_with_schema_comparison graphql_warnings
          schema_comparison_warnings).get ⟨i, h2⟩ = graphql_warnings.get ⟨i, h⟩) ∧
      (∀ sw, schema_comparison_lookup schema_comparison_warnings
            (graphql_warnings.get ⟨i, h⟩).file (graphql_warnings.get ⟨i, h⟩).line
            (graphql_warnings.get ⟨i, h⟩).column = some sw →
        (replace_with_schema_comparison graphql_warnings
            schema_comparison_warnings).get ⟨i, h2⟩ =
          { graphql_warnings.get ⟨i, h⟩ with
              message := sw.message, level := sw.level } ∧
        sw ∈ schema_comparison_warnings ∧
        sw.file = (graphql_warnings.get ⟨i, h⟩).file ∧
        sw.line = (graphql_warnings.get ⟨i, h⟩).line ∧
        sw.column = (graphql_warnings.get ⟨i, h⟩).column)) := by
  constructor
  · simp [replace_with_schema_comparison]
  · intro h2
    have hget : (replace_with_schema_comparison graphql_warnings
        schema_comparison_warnings).get ⟨i, h2⟩ =
        (fun (warning : Warning) =>
          match schema_comparison_lookup schema_comparison_warnings
              warning.file warning.line warning.column with
          | some schema_warning =>
            { warning with message := schema_warning.message, level := schema_warning.level }
          | none => warning) (graphql_warnings.get ⟨i, h⟩) := by
      simp [replace_with_schema_comparison]
    constructor
    · intro hnone
      have hlk : schema_comparison_lookup schema_comparison_warnings
          (graphql_warnings.get ⟨i, h⟩).file (graphql_warnings.get ⟨i, h⟩).line
          (graphql_warnings.get ⟨i, h⟩).column = none := by
        unfold schema_comparison_lookup
        rw [List.find?_eq_none]
        intro sw hsw
        have hmem := List.mem_reverse.mp hsw
        have := hnone sw hmem
        simp only [Bool.and_eq_true, beq_iff_eq]
        intro hcon
        exact this ⟨hcon.1.1, hcon.1.2, hcon.2⟩
      simp only [hget, hlk]
    · intro sw hsw
      have hfind := hsw
      unfold schema_comparison_lookup at hfind
      have hm : sw ∈ schema_comparison_warnings.reverse :=
        List.mem_of_find?_eq_some hfind
      have hp := List.find?_some hfind
      simp only [Bool.and_eq_true, beq_iff_eq] at hp
      refine ⟨?_, List.mem_reverse.mp hm, hp.1.1, hp.1.2, hp.2⟩
      simp only [hget, hsw]

/-- Witness for `pattern_warnings_superseded_at_schema_locations` at a
concrete pattern warning co-located with a schema-comparison finding. -/
theorem pattern_warnings_superseded_witness :
    0 < ([(⟨"app.py", 5, 3, "error", "[GRAPHQL_VALIDATION] generic message"⟩ : Warning)] :
        List Warning).length ∧
    (replace_with_schema_comparison
        [⟨"app.py", 5, 3, "error", "[GRAPHQL_VALIDATION] generic message"⟩]
        [⟨"app.py", 5, 3, "warning", "[REMOVED] specific message"⟩]).length =
      ([(⟨"app.py", 5, 3, "error", "[GRAPHQL_VALIDATION] generic message"⟩ : Warning)] :
        List Warning).length :=
  ⟨by decide,
    (pattern_warnings_superseded_at_schema_locations
      [⟨"app.py", 5, 3, "error", "[GRAPHQL_VALIDATION] generic message"⟩]
      [⟨"app.py", 5, 3, "warning", "[REMOVED] specific message"⟩] 0 (by decide)).1⟩

theorem extract_binAdd_eq (left right : PyExpr) (li el : Option Nat)
    (source : Option (List PyAssign)) :
    (extract_string_and_line_from_node (PyExpr.binAdd left right li el) source).1 =
      (match resolved_operand left source, resolved_operand right source with
       | some lv, some rv => some (lv ++ rv)
       | _, _ => none) := by
  have hd := extract_string_and_line_from_node.eq_def
    (PyExpr.binAdd left right li el) source
  rw [hd]
  unfold resolved_operand
  rcases h1 : (extract_string_and_line_from_node left source).1 with _ | lv <;>
    rcases h2 : (extract_string_and_line_from_node right source).1 with _ | rv <;>
      simp only [h1, h2] <;>
        (first
          | rfl
          | (cases left <;> cases right <;> simp only [h1, h2] <;>
              (first | rfl | (split <;> simp_all))))

/-- C6: binary string concatenation is all-or-nothing — the extractor
returns a value for `left + right` exactly when both operands resolve to
strings (literal extraction, with variable-resolution fallback), the
returned value is then their concatenation, and in particular
`"query " + unresolved_variable` yields no value, so no block is
emitted (callers only hand a block onward when the value is non-`None`). -/
theorem concatenation_all_or_nothing :
    (∀ (left right : PyExpr) (li el : Option Nat)
       (source : Option (List PyAssign)),
      ((extract_string_and_line_from_node (PyExpr.binAdd left right li el)
          source).1.isSome ↔
        (resolved_operand left source).isSome ∧
        (resolved_operand right source).isSome) ∧
      (∀ v, (extract_string_and_line_from_node (PyExpr.binAdd left right li el)
          source).1 = some v →
        ∃ lv rv, resolved_operand left source = some lv ∧
          resolved_operand right source = some rv ∧ v = lv ++ rv)) ∧
    (extract_string_and_line_from_node
      (PyExpr.binAdd (PyExpr.constStr "query " (some 1) (some 1))
        (PyExpr.name "unresolved_variable" (some 1) (some 1)) (some 1) (some 1))
      (some [])).1 = none := by
  constructor
  · intro left right li el source
    rw [extract_binAdd_eq]
    constructor
    · cases hl : resolved_operand left source <;>
        cases hr : resolved_operand right source <;> simp
    · intro v hv
      cases hl : resolved_operand left source <;>
        cases hr : resolved_operand right source <;>
          simp_all
  · rfl

/-- Witness for `concatenation_all_or_nothing`: a fully literal
concatenation resolves both operands. -/
theorem concatenation_all_or_nothing_witness :
    (extract_string_and_line_from_node
      (PyExpr.binAdd (PyExpr.constStr "query " (some 1) (some 1))
        (PyExpr.constStr "{ a }" (some 1) (some 1)) (some 1) (some 1))
      none).1 = some "query { a }" ∧
    ∃ lv rv,
      resolved_operand (PyExpr.constStr "query " (some 1) (some 1)) none = some lv ∧
      resolved_operand (PyExpr.constStr "{ a }" (some 1) (some 1)) none = some rv ∧
      "query { a }" = lv ++ rv :=
  ⟨rfl,
    (concatenation_all_or_nothing.1 (PyExpr.constStr "query " (some 1) (some 1))
      (PyExpr.constStr "{ a }" (some 1) (some 1)) (some 1) (some 1) none).2
      "query { a }" rfl⟩

/-- C7: whenever the GraphQL parser fails on the cleaned block,
`_extract_graphql_defs` appends exactly one block of type "unknown"
carrying the cleaned raw text, the best-effort error line, and the
parser's error text — and nothing else happens (the embedding is a total
function, so no exception escapes this boundary). -/
theorem parse_failure_appends_single_unknown_block
    (parse_fn : String → Except String (List GqlDefn)) (block : String)
    (start_line end_line : Nat) (gql_blocks : List ExtractedBlock)
    (string_offset : Option Nat) (file_source : Option String) (e : String)
    (herr : parse_fn (strip_outer_quotes block) = Except.error e) :
    _extract_graphql_defs parse_fn block start_line end_line gql_blocks
        string_offset file_source =
      gql_blocks ++
        [{ type := "unknown", name := none, vars := [],
           raw := strip_outer_quotes block,
           start_line := find_error_line file_source (strip_outer_quotes block)
             start_line,
           end_line := find_error_line file_source (strip_outer_quotes block)
             start_line,
           error := some e }] := by
  simp only [_extract_graphql_defs]
  rw [herr]

/-- Witness for `parse_failure_appends_single_unknown_block` at a
concrete unparseable block. -/
theorem parse_failure_appends_single_unknown_block_witness :
    ((fun _ => (Except.error "Syntax Error: Expected Name" :
        Except String (List GqlDefn))) (strip_outer_quotes "query \x7b") =
      Except.error "Syntax Error: Expected Name") ∧
    _extract_graphql_defs
        (fun _ => (Except.error "Syntax Error: Expected Name" :
          Except String (List GqlDefn)))
        "query \x7b" 4 4 [] none (some "x = 1\ny = 2\nz = 3\nq = \"query \x7b\"") =
      [{ type := "unknown", name := none, vars := [], raw := "query \x7b",
         start_line := 4, end_line := 4,
         error := some "Syntax Error: Expected Name" }] :=
  ⟨rfl, by
    have h := parse_failure_appends_single_unknown_block
      (fun _ => (Except.error "Syntax Error: Expected Name" :
        Except String (List GqlDefn)))
      "query \x7b" 4 4 [] none (some "x = 1\ny = 2\nz = 3\nq = \"query \x7b\"")
      "Syntax Error: Expected Name" rfl
    rw [h]
    rfl⟩

theorem enum_find_line_ge {lines : List String} {idx i : Nat} {needle : String}
    (h : enum_find_line lines idx needle = some i) : idx ≤ i := by
  induction lines generalizing idx with
  | nil => simp [enum_find_line] at h
  | cons l rest ih =>
    unfold enum_find_line at h
    split at h
    · cases h; exact Nat.le_refl _
    · exact Nat.le_of_succ_le (ih h)

theorem find_error_line_ge_one (file_source : Option String) (cleaned_block : String)
    (start_line : Nat) (h : 1 ≤ start_line) :
    1 ≤ find_error_line file_source cleaned_block start_line := by
  unfold find_error_line
  cases file_source with
  | none => exact h
  | some fsrc =>
    dsimp only
    split
    · split
      next i hfind =>
        exact Nat.le_trans (Nat.le_max_left 1 (start_line - 9))
          (enum_find_line_ge hfind)
      next => exact h
    · exact h

theorem foldl_mem_preserve {α β : Type} (P : β → Prop) (f : List β → α → List β)
    (hf : ∀ acc a, (∀ b ∈ acc, P b) → ∀ b ∈ f acc a, P b) :
    ∀ (l : List α) (acc : List β), (∀ b ∈ acc, P b) → ∀ b ∈ l.foldl f acc, P b := by
  intro l
  induction l with
  | nil => intro acc h b hb; exact h b hb
  | cons a rest ih =>
    intro acc h b hb
    exact ih (f acc a) (hf acc a h) b hb

/-- C8 (amended): every block appended by `_extract_graphql_defs`
satisfies `1 ≤ start_line ≤ end_line`, provided the enclosing span does;
the claim's additional bound by the owning file's total line count does
not hold (see the counterexample). -/
theorem extracted_block_spans_start_le_end
    (parse_fn : String → Except String (List GqlDefn)) (block : String)
    (start_line end_line : Nat) (gql_blocks : List ExtractedBlock)
    (string_offset : Option Nat) (file_source : Option String)
    (h1 : 1 ≤ start_line) (h2 : start_line ≤ end_line)
    (hin : ∀ b ∈ gql_blocks, 1 ≤ b.start_line ∧ b.start_line ≤ b.end_line) :
    ∀ b ∈ _extract_graphql_defs parse_fn block start_line end_line gql_blocks
        string_offset file_source,
      1 ≤ b.start_line ∧ b.start_line ≤ b.end_line := by
  intro b hb
  simp only [_extract_graphql_defs] at hb
  rcases hp : parse_fn (strip_outer_quotes block) with e | defs
  · rw [hp] at hb
    rcases List.mem_append.mp hb with hmem | hmem
    · exact hin b hmem
    · have hbe : b = ⟨"unknown", none, [], none, strip_outer_quotes block,
          find_error_line file_source (strip_outer_quotes block) start_line,
          find_error_line file_source (strip_outer_quotes block) start_line,
          some e⟩ := by simpa using hmem
      subst hbe
      exact ⟨find_error_line_ge_one _ _ _ h1, Nat.le_refl _⟩
  · rw [hp] at hb
    refine foldl_mem_preserve
      (fun b => 1 ≤ b.start_line ∧ b.start_line ≤ b.end_line) _ ?_ defs
      gql_blocks hin b hb
    intro acc defn hacc b2 hb2
    rcases defn with ⟨op, name, vars, loc⟩ | ⟨name, tc, loc⟩ <;>
      rcases List.mem_append.mp hb2 with hmem | hmem <;>
        first
          | exact hacc b2 hmem
          | (rcases loc with _ | ⟨ds, de⟩ <;>
              simp only [List.mem_singleton] at hmem <;>
                subst hmem <;>
                  rcases string_offset with _ | off <;>
                    rcases file_source with _ | fsrc <;>
                      dsimp only <;>
                        constructor <;>
                          first
                            | omega
                            | (split <;> omega))

/-- C8 (counterexample): extraction can produce a block whose span lies
OUTSIDE the owning file's total line count.  The one-line Python file
`q = "\x7b a\nb\nc\nd \x7d"` (escaped newlines in the source text, real
newlines in the string value) is handled by the `ast.Assign` arm of
strategy 4: the extracted value has balanced braces, the AST gives
`lineno = end_lineno = 1`, and `_extract_graphql_defs` — seeing a
newline in the cleaned value — applies its multiline `+1` adjustment,
yielding a block with `start_line = 2` and `end_line = 5` in a file of 1
line; the GraphQL parser accepts the anonymous operation `{ a\nb\nc\nd }`
with `loc` offsets `(0, 11)` over its 11 characters. -/
theorem extracted_block_span_exceeds_file_counterexample :
    process_assign_node
        (fun s => if s = "\x7b a\nb\nc\nd \x7d" then
            Except.ok [GqlDefn.operation "query" none [] (some (0, 11))]
          else Except.error "unexpected")
        [AssignTarget.nameTarget "q"]
        (PyExpr.constStr "\x7b a\nb\nc\nd \x7d" (some 1) (some 1)) 1 (some 1)
        (some [⟨[AssignTarget.nameTarget "q"],
          PyExpr.constStr "\x7b a\nb\nc\nd \x7d" (some 1) (some 1)⟩])
        "q = \"\x7b a\\nb\\nc\\nd \x7d\"" [] =
      [⟨"query", none, [], none, "\x7b a\nb\nc\nd \x7d", 2, 5, none⟩] ∧
    (pySplitLines "q = \"\x7b a\\nb\\nc\\nd \x7d\"").length = 1 ∧
    ¬((2 : Nat) ≤ 1) ∧ ¬((5 : Nat) ≤ 1) := by
  refine ⟨?_, rfl, by decide, by decide⟩
  rfl

/-- Witness for `extracted_block_spans_start_le_end` at a concrete
parse: a well-quoted single-line block keeps a valid span. -/
theorem extracted_block_spans_start_le_end_witness :
    (1 : Nat) ≤ 3 ∧ (3 : Nat) ≤ 3 ∧
    ∀ b ∈ _extract_graphql_defs
        (fun s => if s = "query Q { a }" then
            Except.ok [GqlDefn.operation "query" (some "Q") [] (some (0, 13))]
          else Except.error "unexpected")
        "\"query Q { a }\"" 3 3 [] none none,
      1 ≤ b.start_line ∧ b.start_line ≤ b.end_line :=
  ⟨by decide, by decide,
    extracted_block_spans_start_le_end
      (fun s => if s = "query Q { a }" then
          Except.ok [GqlDefn.operation "query" (some "Q") [] (some (0, 13))]
        else Except.error "unexpected")
      "\"query Q { a }\"" 3 3 [] none none (by decide) (by decide)
      (by intro b hb; simp at hb)⟩

/-! ## Deduplication invariants (for C5) -/

theorem dict_lookup_none_iff (m : List ((String × Option String × String) × ExtractedBlock))
    (k : String × Option String × String) :
    m.lookup k = none ↔ ∀ p ∈ m, p.1 ≠ k := by
  induction m with
  | nil => simp
  | cons p rest ih =>
    obtain ⟨k0, b0⟩ := p
    cases hbeq : k == k0 with
    | true =>
      have he : k = k0 := eq_of_beq hbeq
      subst he
      simp [List.lookup]
    | false =>
      have hne : ¬(k = k0) := by simpa using hbeq
      simp only [List.lookup, hbeq]
      rw [ih]
      constructor
      · intro hall p hp
        rcases List.mem_cons.mp hp with hp | hp
        · subst hp
          simpa using fun he => hne he.symm
        · exact hall p hp
      · intro hall p hp
        exact hall p (List.mem_cons_of_mem _ hp)

theorem dict_lookup_some_mem (m : List ((String × Option String × String) × ExtractedBlock))
    (k : String × Option String × String) (v : ExtractedBlock)
    (h : m.lookup k = some v) : (k, v) ∈ m := by
  induction m with
  | nil => simp [List.lookup] at h
  | cons p rest ih =>
    obtain ⟨k0, b0⟩ := p
    cases hbeq : k == k0 with
    | true =>
      have he : k = k0 := eq_of_beq hbeq
      subst he
      simp only [List.lookup, hbeq] at h
      cases h
      exact List.mem_cons_self _ _
    | false =>
      simp only [List.lookup, hbeq] at h
      exact List.mem_cons_of_mem _ (ih h)

theorem dictInsert_of_fresh (m : List ((String × Option String × String) × ExtractedBlock))
    (k : String × Option String × String) (b : ExtractedBlock)
    (h : ∀ p ∈ m, p.1 ≠ k) : dictInsert m k b = m ++ [(k, b)] := by
  induction m with
  | nil => rfl
  | cons p rest ih =>
    obtain ⟨k0, b0⟩ := p
    have hne : ¬(k0 = k) := by simpa using h (k0, b0) (List.mem_cons_self _ _)
    simp only [dictInsert]
    rw [if_neg hne, ih (fun p hp => h p (List.mem_cons_of_mem _ hp))]
    simp

theorem dictInsert_of_present (m : List ((String × Option String × String) × ExtractedBlock))
    (k : String × Option String × String) (b : ExtractedBlock)
    (hnd : (m.map Prod.fst).Nodup) (hk : k ∈ m.map Prod.fst) :
    (dictInsert m k b).map Prod.fst = m.map Prod.fst ∧
    (∀ p, p ∈ dictInsert m k b ↔ ((p ∈ m ∧ p.1 ≠ k) ∨ p = (k, b))) := by
  induction m with
  | nil => simp at hk
  | cons q rest ih =>
    obtain ⟨k0, b0⟩ := q
    simp only [List.map_cons, List.nodup_cons] at hnd
    by_cases h : k0 = k
    · subst h
      have hstep : dictInsert ((k0, b0) :: rest) k0 b = (k0, b) :: rest := by
        simp [dictInsert]
      rw [hstep]
      constructor
      · simp
      · intro p
        simp only [List.mem_cons]
        constructor
        · intro hp
          rcases hp with hp | hp
          · exact Or.inr hp
          · refine Or.inl ⟨Or.inr hp, ?_⟩
            intro he
            apply hnd.1
            have hm : p.1 ∈ rest.map Prod.fst := List.mem_map_of_mem Prod.fst hp
            rwa [he] at hm
        · intro hp
          rcases hp with ⟨hp2, hne⟩ | hp2
          · rcases hp2 with hp2 | hp2
            · exact absurd (by rw [hp2]) hne
            · exact Or.inr hp2
          · exact Or.inl hp2
    · have hk2 : k ∈ rest.map Prod.fst := by
        rcases List.mem_cons.mp hk with hk | hk
        · exact absurd hk.symm h
        · exact hk
      have hrec := ih hnd.2 hk2
      have hstep : dictInsert ((k0, b0) :: rest) k b =
          (k0, b0) :: dictInsert rest k b := by
        simp only [dictInsert]
        rw [if_neg h]
      rw [hstep]
      constructor
      · simp [hrec.1]
      · intro p
        simp only [List.mem_cons, hrec.2]
        constructor
        · intro hp
          rcases hp with hp | hp
          · subst hp
            exact Or.inl ⟨Or.inl rfl, by simpa using h⟩
          · rcases hp with ⟨hp2, hne⟩ | hp2
            · exact Or.inl ⟨Or.inr hp2, hne⟩
            · exact Or.inr hp2
        · intro hp
          rcases hp with ⟨hp2, hne⟩ | hp2
          · rcases hp2 with hp2 | hp2
            · exact Or.inl hp2
            · exact Or.inr (Or.inl ⟨hp2, hne⟩)
          · exact Or.inr (Or.inr hp2)

theorem nodup_keys_unique_value
    (m : List ((String × Option String × String) × ExtractedBlock))
    (hnd : (m.map Prod.fst).Nodup) (k : String × Option String × String)
    (v1 v2 : ExtractedBlock) (h1 : (k, v1) ∈ m) (h2 : (k, v2) ∈ m) : v1 = v2 := by
  induction m with
  | nil => simp at h1
  | cons q rest ih =>
    simp only [List.map_cons, List.nodup_cons] at hnd
    rcases List.mem_cons.mp h1 with h1 | h1 <;>
      rcases List.mem_cons.mp h2 with h2 | h2
    · rw [← h1] at h2
      exact (congrArg Prod.snd h2).symm
    · exfalso
      apply hnd.1
      have hq : q.1 = k := congrArg Prod.fst h1.symm
      rw [hq]
      exact (List.mem_map_of_mem Prod.fst h2 : (k, v2).1 ∈ _)
    · exfalso
      apply hnd.1
      have hq : q.1 = k := congrArg Prod.fst h2.symm
      rw [hq]
      exact (List.mem_map_of_mem Prod.fst h1 : (k, v1).1 ∈ _)
    · exact ih hnd.2 h1 h2

theorem dedupInv_step (m : List ((String × Option String × String) × ExtractedBlock))
    (processed : List ExtractedBlock) (x : ExtractedBlock)
    (h : DedupInv m processed) : DedupInv (dedup_step m x) (processed ++ [x]) := by
  obtain ⟨hnd, hent, hcov⟩ := h
  unfold dedup_step
  cases hlk : m.lookup (dedup_key x) with
  | none =>
    have hfresh : ∀ p ∈ m, p.1 ≠ dedup_key x := (dict_lookup_none_iff _ _).mp hlk
    simp only [hlk]
    rw [dictInsert_of_fresh _ _ _ hfresh]
    refine ⟨?_, ?_, ?_⟩
    · rw [List.map_append, List.nodup_append]
      refine ⟨hnd, by simp, ?_⟩
      intro y hy hy2
      simp only [List.map_cons, List.map_nil, List.mem_singleton] at hy2
      obtain ⟨p, hp, hpe⟩ := List.mem_map.mp hy
      exact hfresh p hp (hpe.trans hy2)
    · intro p hp
      rcases List.mem_append.mp hp with hp | hp
      · obtain ⟨hk, hm, hmin⟩ := hent p hp
        refine ⟨hk, List.mem_append_left _ hm, ?_⟩
        intro c hc hck
        rcases List.mem_append.mp hc with hc | hc
        · exact hmin c hc hck
        · simp only [List.mem_singleton] at hc
          rw [hc] at hck
          exact absurd hck.symm (Ne.symm (hfresh p hp)).symm
      · simp only [List.mem_singleton] at hp
        rw [hp]
        refine ⟨rfl, List.mem_append_right _ (by simp), ?_⟩
        intro c hc hck
        rcases List.mem_append.mp hc with hc | hc
        · obtain ⟨p2, hp2, hp2e⟩ := hcov c hc
          exact absurd (hp2e.trans hck) (hfresh p2 hp2)
        · simp only [List.mem_singleton] at hc
          rw [hc]
    · intro c hc
      rcases List.mem_append.mp hc with hc | hc
      · obtain ⟨p2, hp2, hp2e⟩ := hcov c hc
        exact ⟨p2, List.mem_append_left _ hp2, hp2e⟩
      · simp only [List.mem_singleton] at hc
        rw [hc]
        exact ⟨(dedup_key x, x), List.mem_append_right _ (by simp), rfl⟩
  | some cur =>
    have hcurmem : (dedup_key x, cur) ∈ m := dict_lookup_some_mem _ _ _ hlk
    have hcurprops := hent (dedup_key x, cur) hcurmem
    have hkmem : dedup_key x ∈ m.map Prod.fst :=
      (List.mem_map_of_mem Prod.fst hcurmem : (dedup_key x, cur).1 ∈ _)
    simp only [hlk]
    split
    · rename_i hlt
      obtain ⟨hkeys, hchar⟩ := dictInsert_of_present m (dedup_key x) x hnd hkmem
      refine ⟨by rw [hkeys]; exact hnd, ?_, ?_⟩
      · intro p hp
        rcases (hchar p).mp hp with ⟨hpm, hpne⟩ | hpe
        · obtain ⟨hk, hm, hmin⟩ := hent p hpm
          refine ⟨hk, List.mem_append_left _ hm, ?_⟩
          intro c hc hck
          rcases List.mem_append.mp hc with hc | hc
          · exact hmin c hc hck
          · simp only [List.mem_singleton] at hc
            rw [hc] at hck
            exact absurd hck (by simpa using fun he => hpne he.symm)
        · rw [hpe]
          refine ⟨rfl, List.mem_append_right _ (by simp), ?_⟩
          intro c hc hck
          rcases List.mem_append.mp hc with hc | hc
          · exact Nat.le_of_lt (Nat.lt_of_lt_of_le hlt
              (hcurprops.2.2 c hc (by simpa using hck)))
          · simp only [List.mem_singleton] at hc
            rw [hc]
      · intro c hc
        rcases List.mem_append.mp hc with hc | hc
        · obtain ⟨p2, hp2, hp2e⟩ := hcov c hc
          by_cases hpk : p2.1 = dedup_key x
          · exact ⟨(dedup_key x, x), (hchar _).mpr (Or.inr rfl),
              by rw [← hpk, hp2e]⟩
          · exact ⟨p2, (hchar _).mpr (Or.inl ⟨hp2, hpk⟩), hp2e⟩
        · simp only [List.mem_singleton] at hc
          rw [hc]
          exact ⟨(dedup_key x, x), (hchar _).mpr (Or.inr rfl), rfl⟩
    · rename_i hnlt
      refine ⟨hnd, ?_, ?_⟩
      · intro p hp
        obtain ⟨hk, hm, hmin⟩ := hent p hp
        refine ⟨hk, List.mem_append_left _ hm, ?_⟩
        intro c hc hck
        rcases List.mem_append.mp hc with hc | hc
        · exact hmin c hc hck
        · simp only [List.mem_singleton] at hc
          rw [hc] at hck ⊢
          have hpk : p.1 = dedup_key x := hck.symm
          have hpm : (dedup_key x, p.2) ∈ m := by
            have hpp : p = (p.1, p.2) := rfl
            rw [hpp, hpk] at hp
            exact hp
          have hcur2 : p.2 = cur := nodup_keys_unique_value m hnd _ _ _ hpm hcurmem
          rw [hcur2]
          exact Nat.le_of_not_lt hnlt
      · intro c hc
        rcases List.mem_append.mp hc with hc | hc
        · exact hcov c hc
        · simp only [List.mem_singleton] at hc
          rw [hc]
          exact ⟨(dedup_key x, cur), hcurmem, rfl⟩

theorem dedupInv_foldl (l : List ExtractedBlock) :
    ∀ (m : List ((String × Option String × String) × ExtractedBlock))
      (processed : List ExtractedBlock), DedupInv m processed →
      DedupInv (l.foldl dedup_step m) (processed ++ l) := by
  induction l with
  | nil => intro m processed h; simpa using h
  | cons b rest ih =>
    intro m processed h
    have h2 := dedupInv_step m processed b h
    have h3 := ih (dedup_step m b) (processed ++ [b]) h2
    simpa using h3

theorem filter_key_count_one
    (m : List ((String × Option String × String) × ExtractedBlock))
    (hnd : (m.map Prod.fst).Nodup)
    (hcons : ∀ p ∈ m, dedup_key p.2 = p.1)
    (k : String × Option String × String) (hk : k ∈ m.map Prod.fst) :
    ((m.map Prod.snd).filter (fun b => dedup_key b = k)).length = 1 := by
  induction m with
  | nil => simp at hk
  | cons q rest ih =>
    obtain ⟨k0, b0⟩ := q
    simp only [List.map_cons, List.nodup_cons] at hnd
    have hb0 : dedup_key b0 = k0 := hcons (k0, b0) (List.mem_cons_self _ _)
    by_cases he : k0 = k
    · have hpass : (dedup_key b0 = k) := by rw [hb0, he]
      have hrest : (rest.map Prod.snd).filter (fun b => dedup_key b = k) = [] := by
        rw [List.filter_eq_nil_iff]
        intro b hb
        obtain ⟨p, hp, hpe⟩ := List.mem_map.mp hb
        have hkey : dedup_key b = p.1 := by
          rw [← hpe]
          exact hcons p (List.mem_cons_of_mem _ hp)
        simp only [decide_eq_true_eq]
        intro hbk
        apply hnd.1
        rw [he, ← hbk, hkey]
        exact List.mem_map_of_mem Prod.fst hp
      simp [List.filter_cons, hpass, hrest]
    · have hk2 : k ∈ rest.map Prod.fst := by
        rcases List.mem_cons.mp hk with hk | hk
        · exact absurd hk.symm he
        · exact hk
      have hfail : ¬(dedup_key b0 = k) := by rw [hb0]; exact he
      simp only [List.map_cons, List.filter_cons, decide_eq_true_eq]
      rw [if_neg (by simpa using hfail)]
      exact ih hnd.2 (fun p hp => hcons p (List.mem_cons_of_mem _ hp)) hk2

/-- C5: among extracted GraphQL blocks sharing a deduplication key
`(kind, name, whitespace-and-comment-normalized body)`, exactly one
block survives `deduplicate_and_sort_results`; the survivor comes from
the input and carries the minimal start line among the key's blocks; and
the deduplicated output is sorted by start line ascending. -/
theorem dedup_keeps_unique_minimal_and_sorts (results : List ExtractedBlock)
    (k : String × Option String × String)
    (hk : ∃ b ∈ results.filter (fun r =>
        r.type ∈ ["query", "mutation", "subscription", "fragment", "unknown"]),
      dedup_key b = k) :
    ((deduplicate_and_sort_results results).filter
        (fun b => dedup_key b = k)).length = 1 ∧
    (∀ b ∈ deduplicate_and_sort_results results, dedup_key b = k →
      b ∈ results.filter (fun r =>
        r.type ∈ ["query", "mutation", "subscription", "fragment", "unknown"]) ∧
      ∀ b2 ∈ results.filter (fun r =>
          r.type ∈ ["query", "mutation", "subscription", "fragment", "unknown"]),
        dedup_key b2 = k → b.start_line ≤ b2.start_line) ∧
    (deduplicate_and_sort_results results).Pairwise
      (fun a b => a.start_line ≤ b.start_line) := by
  have hinv : DedupInv
      ((results.filter (fun r =>
        r.type ∈ ["query", "mutation", "subscription", "fragment", "unknown"])).foldl
          dedup_step [])
      (results.filter (fun r =>
        r.type ∈ ["query", "mutation", "subscription", "fragment", "unknown"])) := by
    have h0 : DedupInv [] [] := ⟨by simp, by simp, by simp⟩
    have := dedupInv_foldl (results.filter (fun r =>
      r.type ∈ ["query", "mutation", "subscription", "fragment", "unknown"])) [] [] h0
    simpa using this
  obtain ⟨hnd, hent, hcov⟩ := hinv
  have hout : deduplicate_and_sort_results results =
      (((results.filter (fun r =>
        r.type ∈ ["query", "mutation", "subscription", "fragment", "unknown"])).foldl
          dedup_step []).map Prod.snd).mergeSort
        (fun a b => a.start_line ≤ b.start_line) := rfl
  have hperm := List.mergeSort_perm
    (((results.filter (fun r =>
      r.type ∈ ["query", "mutation", "subscription", "fragment", "unknown"])).foldl
        dedup_step []).map Prod.snd)
    (fun a b => a.start_line ≤ b.start_line)
  refine ⟨?_, ?_, ?_⟩
  · rw [hout]
    rw [List.Perm.length_eq (List.Perm.filter _ hperm)]
    obtain ⟨b, hb, hbk⟩ := hk
    obtain ⟨p, hp, hpe⟩ := hcov b hb
    refine filter_key_count_one _ hnd (fun p hp => (hent p hp).1) k ?_
    rw [← hbk, ← hpe]
    exact List.mem_map_of_mem Prod.fst hp
  · intro b hb hbk
    rw [hout] at hb
    have hb2 : b ∈ ((results.filter (fun r =>
        r.type ∈ ["query", "mutation", "subscription", "fragment", "unknown"])).foldl
          dedup_step []).map Prod.snd := (List.Perm.mem_iff hperm).mp hb
    obtain ⟨p, hp, hpe⟩ := List.mem_map.mp hb2
    obtain ⟨hkey, hmem, hmin⟩ := hent p hp
    rw [hpe] at hkey hmem hmin
    refine ⟨hmem, ?_⟩
    intro b2 hb2m hb2k
    exact hmin b2 hb2m (by rw [hb2k, ← hbk, ← hkey])
  · rw [hout]
    have hs := @List.sorted_mergeSort ExtractedBlock
      (fun (a b : ExtractedBlock) => a.start_line ≤ b.start_line)
      (fun a b c hab hbc => by
        simp only [decide_eq_true_eq] at hab hbc ⊢
        omega)
      (fun a b => by
        simp only [Bool.or_eq_true, decide_eq_true_eq]
        omega)
      (((results.filter (fun r =>
        r.type ∈ ["query", "mutation", "subscription", "fragment", "unknown"])).foldl
          dedup_step []).map Prod.snd)
    exact hs.imp (fun h => by simpa using h)

/-- Witness for `dedup_keeps_unique_minimal_and_sorts`: two copies of the
same query with different whitespace and start lines collapse to one. -/
theorem dedup_keeps_unique_minimal_and_sorts_witness :
    (∃ b ∈ ([⟨"query", some "Q", [], none, "query Q { a }", 10, 10, none⟩,
             ⟨"query", some "Q", [], none, "query  Q {   a }", 3, 3, none⟩] :
        List ExtractedBlock).filter (fun r =>
          r.type ∈ ["query", "mutation", "subscription", "fragment", "unknown"]),
      dedup_key b = ("query", some "Q", "queryQ{a}")) ∧
    ((deduplicate_and_sort_results
        [⟨"query", some "Q", [], none, "query Q { a }", 10, 10, none⟩,
         ⟨"query", some "Q", [], none, "query  Q {   a }", 3, 3, none⟩]).filter
      (fun b => dedup_key b = ("query", some "Q", "queryQ{a}"))).length = 1 :=
  ⟨⟨⟨"query", some "Q", [], none, "query Q { a }", 10, 10, none⟩, by decide, by decide⟩,
    (dedup_keeps_unique_minimal_and_sorts
      [⟨"query", some "Q", [], none, "query Q { a }", 10, 10, none⟩,
       ⟨"query", some "Q", [], none, "query  Q {   a }", 3, 3, none⟩]
      ("query", some "Q", "queryQ{a}")
      ⟨⟨"query", some "Q", [], none, "query Q { a }", 10, 10, none⟩,
        by decide, by decide⟩).1⟩
